import Mathlib

/-!
# Verification of the timeline core (date parsing, calendar construction, viewport sanitization)

Shallow embedding of the core of the `obsidian-timelines-extended` plugin:

* `src/utils/dates.ts` — `parseSimplifiedDate`, `createDateResult`,
  `validateTimelineType`, `buildTimelineDate`, `sortTimelineDates`;
* `src/utils/arguments.ts` — `setDefaultArgs`;
* `src/timelines/horizontal.ts` — the per-event item-assembly pipeline and the
  viewport-sanitization pass that guards the vis-timeline render boundary.

Modelling conventions:
* JavaScript strings are `List Char` (`JStr`); string operations
  (`substring`, `replace(/\D/g,'')`, `padStart`, `slice`, default `sort`)
  are the corresponding list operations.
* JavaScript numbers are exact integers (`Int`/`Nat`).  All numbers handled by
  this core (date components, millisecond timestamps, zoom limits) are
  integer-valued and well inside the double-precision safe range, so exact
  integer arithmetic is the faithful model; `NaN`/Invalid-Date is `Option.none`.
* `Date` values are their millisecond time values (UTC), on the proleptic
  Gregorian calendar, exactly as specified by ECMAScript (`MakeDay`/`MakeDate`,
  time clipping to ±8.64e15 ms, two-digit-year adjustment in the constructor).
* luxon's `DateTime.fromFormat(_, 'y-M-d-H')` validates the calendar date
  strictly (a day past the end of the month yields an Invalid DateTime, hence
  a `null` ISO string); for a valid date it denotes the same instant as the
  direct construction.
-/

/-! ## Calendar arithmetic (ECMAScript proleptic Gregorian, UTC) -/

/-- Proleptic-Gregorian leap-year predicate (ECMAScript `DaysInYear`). -/
def isLeap (y : Int) : Bool :=
  (y % 4 == 0 && y % 100 != 0) || y % 400 == 0

/-- Day number (days since the Unix epoch 1970-01-01) of January 1 of year `y`,
proleptic Gregorian (ECMAScript `DayFromYear`). -/
def gday (y : Int) : Int :=
  365 * (y - 1) + (y - 1) / 4 - (y - 1) / 100 + (y - 1) / 400 - 719162

/-- Year containing day number `d` (days since 1970-01-01): inverse of `gday`
(ECMAScript `YearFromTime`).  `y0` is a one-division approximation (400 Gregorian
years are exactly 146097 days); the branches correct it. -/
def yearOfDay (d : Int) : Int :=
  let y0 := (400 * (d + 719468)) / 146097
  if d < gday (y0 - 1) then y0 - 2
  else if d < gday y0 then y0 - 1
  else if d < gday (y0 + 1) then y0
  else if d < gday (y0 + 2) then y0 + 1
  else y0 + 2

/-- `Date.prototype.getFullYear` (UTC) of a millisecond time value. -/
def getFullYear (t : Int) : Int :=
  yearOfDay (t / 86400000)

/-- Days before the (1-indexed) month `m` in a non-leap year. -/
def cumDays (m : Int) : Int :=
  if m ≤ 1 then 0 else if m = 2 then 31 else if m = 3 then 59 else if m = 4 then 90
  else if m = 5 then 120 else if m = 6 then 151 else if m = 7 then 181
  else if m = 8 then 212 else if m = 9 then 243 else if m = 10 then 273
  else if m = 11 then 304 else 334

/-- Number of days of the (1-indexed) month `m` of year `y`. -/
def daysInMonth (y m : Int) : Int :=
  if m = 2 then (if isLeap y then 29 else 28)
  else if m = 4 ∨ m = 6 ∨ m = 9 ∨ m = 11 then 30
  else 31

/-- Millisecond time value (UTC) of year/month/day/hour with a 0-indexed month:
ECMAScript `MakeDate ∘ MakeDay` (linear in `day` and `hour`, so out-of-range
days roll over exactly as in JS), without clipping and without the
two-digit-year constructor rule. -/
def makeDateMs (year monthIdx day hour : Int) : Int :=
  86400000 * (gday year + cumDays (monthIdx + 1)
    + (if 3 ≤ monthIdx + 1 ∧ isLeap year then 1 else 0) + (day - 1))
  + 3600000 * hour

/-- JS `new Date(y, m, d, h)` time value: two-digit-year adjustment plus
`TimeClip` (`none` = Invalid Date). -/
def jsNewDateMs (year monthIdx day hour : Int) : Option Int :=
  let y := if 0 ≤ year ∧ year ≤ 99 then 1900 + year else year
  let t := makeDateMs y monthIdx day hour
  if t < -8640000000000000 ∨ 8640000000000000 < t then none else some t

/-! ## JavaScript string model -/

/-- JavaScript strings, modelled as their character lists. -/
abbrev JStr := List Char

/-- `\d` of JS regexps: the ASCII digits. -/
def jsIsDigit (c : Char) : Bool :=
  48 ≤ c.toNat && c.toNat ≤ 57

/-- Numeric value of an ASCII digit. -/
def digitVal (c : Char) : Nat :=
  c.toNat - 48

/-- `parseInt` on a string of ASCII digits (with `parseInt('') || 0 = 0`). -/
def digitsToNat (s : JStr) : Nat :=
  s.foldl (fun a c => 10 * a + digitVal c) 0

/-- The ASCII digit character of a value `< 10`. -/
def digitChar (n : Nat) : Char :=
  match n with
  | 0 => '0' | 1 => '1' | 2 => '2' | 3 => '3' | 4 => '4'
  | 5 => '5' | 6 => '6' | 7 => '7' | 8 => '8' | _ => '9'

/-- Fuel-based recursion for `natToDigits` (the fuel only bounds the digit
count; `natToDigits` always supplies enough). -/
def natToDigitsAux : Nat → Nat → List Char
  | 0, n => [digitChar n]
  | fuel + 1, n =>
    if n < 10 then [digitChar n]
    else natToDigitsAux fuel (n / 10) ++ [digitChar (n % 10)]

/-- Decimal digit string of a natural number (JS `Number.prototype.toString`
for non-negative integer values). -/
def natToDigits (n : Nat) : List Char :=
  natToDigitsAux n n

/-- JS `Number.prototype.toString` for integer values. -/
def intToStr (i : Int) : JStr :=
  if i < 0 then '-' :: natToDigits i.natAbs else natToDigits i.toNat

/-- JS `String.prototype.padStart(n, c)`. -/
def padStart (s : JStr) (n : Nat) (c : Char) : JStr :=
  List.replicate (n - s.length) c ++ s

/-- JS `Array.prototype.join('-')`. -/
def joinDash : List JStr → JStr
  | [] => []
  | [x] => x
  | x :: xs => x ++ '-' :: joinDash xs

/-- Lexicographic (UTF-16 code unit) strict order on strings: the order used by
the default comparator of JS `Array.prototype.sort`. -/
def lexLt : JStr → JStr → Bool
  | [], [] => false
  | [], _ :: _ => true
  | _ :: _, [] => false
  | a :: as, b :: bs =>
    if a.toNat < b.toNat then true
    else if b.toNat < a.toNat then false
    else lexLt as bs

/-- Insert into a lexicographically sorted list. -/
def insertSorted (x : JStr) : List JStr → List JStr
  | [] => [x]
  | y :: ys => if lexLt y x then y :: insertSorted x ys else x :: y :: ys

/-- JS `Array.prototype.sort()` with the default (lexicographic) comparator.
Equal keys are equal strings, so any comparison sort yields this result. -/
def sortStrings (l : List JStr) : List JStr :=
  l.foldr insertSorted []

/-! ## `src/utils/dates.ts` -/

/-- Parsing configuration: five field widths (`src/types.ts`). -/
structure DateParsingConfig where
  yearLength : Nat
  monthLength : Nat
  dayLength : Nat
  hourLength : Nat
  minuteLength : Nat
deriving DecidableEq

/-- Result object of the parser (`src/types.ts`); `month` is 0-indexed. -/
structure CleanedDateResultObject where
  cleanedDateString : JStr
  normalizedDateString : JStr
  originalDateString : JStr
  readableDateString : JStr
  year : Int
  month : Int
  day : Int
  hour : Int
deriving DecidableEq

/-- `createDateResult` (dates.ts): build a `CleanedDateResultObject` from parsed
components.  `Math.floor(hour + minute/60)` on integers is `hour + minute / 60`
with floor division. -/
def createDateResult (year month day hour minute : Int)
    (originalDateString : JStr) : CleanedDateResultObject :=
  let hourWithMinutes := hour + minute / 60
  let normalizedDateString :=
    padStart (intToStr year) 4 '0' ++ '-' :: padStart (intToStr month) 2 '0'
      ++ '-' :: padStart (intToStr day) 2 '0' ++ '-' :: padStart (intToStr hour) 2 '0'
  let parts1 : List JStr := [intToStr year]
  let parts2 := if 1 < month ∨ 1 < day ∨ 0 < hour ∨ 0 < minute
    then parts1 ++ [padStart (intToStr month) 2 '0'] else parts1
  let parts3 := if 1 < day ∨ 0 < hour ∨ 0 < minute
    then parts2 ++ [padStart (intToStr day) 2 '0'] else parts2
  let parts4 := if 0 < hour ∨ 0 < minute
    then parts3 ++ [padStart (intToStr hour) 2 '0'] else parts3
  { cleanedDateString := normalizedDateString
    normalizedDateString := normalizedDateString
    originalDateString := originalDateString
    readableDateString := joinDash parts4
    year := year
    month := month - 1
    day := day
    hour := hourWithMinutes }

/-- `parseSimplifiedDate` (dates.ts): strip non-digits, consume fixed-width
slices year→month→day→hour→minute, auto-generate end dates. -/
def parseSimplifiedDate (dateString : JStr) (config : DateParsingConfig)
    (isEndDate : Bool := false) (eventType : JStr := "box".toList) :
    Option CleanedDateResultObject :=
  if dateString = [] then none
  else
    let cleanString := dateString.filter jsIsDigit
    let yearStr := cleanString.take config.yearLength
    if yearStr = [] then none
    else
      let rest1 := cleanString.drop config.yearLength
      let monthStr := rest1.take config.monthLength
      let rest2 := rest1.drop config.monthLength
      let dayStr := rest2.take config.dayLength
      let rest3 := rest2.drop config.dayLength
      let hourStr := rest3.take config.hourLength
      let rest4 := rest3.drop config.hourLength
      let minuteStr := rest4.take config.minuteLength
      let year : Int := (digitsToNat yearStr : Int)
      let month : Int := (digitsToNat monthStr : Int)
      let day : Int := (digitsToNat dayStr : Int)
      let hour : Int := (digitsToNat hourStr : Int)
      let minute : Int := (digitsToNat minuteStr : Int)
      if year = 0 then none
      else if isEndDate = true ∧ eventType ≠ "point".toList ∧ monthStr = [] ∧
          dayStr = [] ∧ hourStr = [] ∧ minuteStr = [] then
        some (createDateResult (year + 1) 1 1 0 0 dateString)
      else
        let month := if month = 0 then 1 else month
        let day := if day = 0 then 1 else day
        some (createDateResult year month day hour minute dateString)

/-- `validateTimelineType` (dates.ts): strip a leading `vis-`, default to
`box` for null/empty/unrecognized input. -/
def validateTimelineType (type? : Option JStr) : JStr :=
  let validTypes : List JStr :=
    ["box".toList, "point".toList, "range".toList, "background".toList]
  match type? with
  | none => "box".toList
  | some t =>
    if t = [] then "box".toList
    else
      let normalizedType := if t.take 4 = "vis-".toList then t.drop 4 else t
      if normalizedType ∈ validTypes then normalizedType else "box".toList

/-- `buildTimelineDate` (dates.ts): bounds-check the components, then construct
the instant.  For `year < 0 ∨ year > 1900` JS `new Date(y, m, d, h)` is used
directly; for `1 ≤ year ≤ 1900` the date goes through
`luxon.DateTime.fromFormat(_, 'y-M-d-H') → toISO → new Date(iso)`, which
validates the calendar date strictly (a day past the month's end gives a null
ISO string, hence `null`) and otherwise denotes the same UTC instant. -/
def buildTimelineDate (dateResult : Option CleanedDateResultObject) : Option Int :=
  match dateResult with
  | none => none
  | some r =>
    if r.year = 0 then none
    else if r.month < 0 ∨ 11 < r.month then none
    else if r.day < 1 ∨ 31 < r.day then none
    else if r.hour < 0 ∨ 23 < r.hour then none
    else if r.year < 0 ∨ 1900 < r.year then
      jsNewDateMs r.year r.month r.day r.hour
    else
      if daysInMonth r.year (r.month + 1) < r.day then none
      else some (makeDateMs r.year r.month r.day r.hour)

/-- `sortTimelineDates` (dates.ts): sort normalized date strings, treating
`'-'`-prefixed (BCE) dates separately. -/
def sortTimelineDates (timelineDates : List JStr) (sortDirection : Bool) :
    List JStr :=
  let filterFunc := fun (dateStr : JStr) => dateStr.head? == some '-'
  let negativeDatesUnsorted := timelineDates.filter filterFunc
  let positiveDates := sortStrings (timelineDates.filter (fun d => !(filterFunc d)))
  let strippedNegativeDates :=
    (sortStrings (negativeDatesUnsorted.map (fun d => d.drop 1))).reverse
  if sortDirection then
    (strippedNegativeDates.map (fun d => '-' :: d)) ++ positiveDates
  else
    positiveDates.reverse ++ ((strippedNegativeDates.reverse).map (fun d => '-' :: d))

/-! ## `src/utils/arguments.ts` -/

/-- The date/zoom fields of `InternalTimelineArgs` built by `setDefaultArgs`.
A date field is `none` when the underlying `Date` is invalid. -/
structure InternalTimelineArgs where
  startDate : Option Int
  endDate : Option Int
  minDate : Option Int
  maxDate : Option Int
  divHeight : Int
  zoomOutLimit : Int
  zoomInLimit : Int
deriving DecidableEq

/-- `x || fallback` on `Date | null` values. -/
def orDate (x : Option Int) (fallback : Option Int) : Option Int :=
  match x with
  | some t => some t
  | none => fallback

/-- `setDefaultArgs` (arguments.ts): default visible window
`[max(1900, currentYear-50), currentYear+50]` and pannable bound
`[max(1800, currentYear-100), currentYear+100]`, each year fed through
`parseSimplifiedDate ∘ buildTimelineDate` with a `new Date(y, 0, 1)` fallback;
`currentYear` is `new Date().getFullYear()`, passed as a parameter. -/
def setDefaultArgs (config : DateParsingConfig) (currentYear : Int) :
    InternalTimelineArgs :=
  let startYear := max 1900 (currentYear - 50)
  let endYear := currentYear + 50
  let minYear := max 1800 (currentYear - 100)
  let maxYear := currentYear + 100
  let startDateResult := parseSimplifiedDate (intToStr startYear) config false "box".toList
  let endDateResult := parseSimplifiedDate (intToStr endYear) config false "box".toList
  let minDateResult := parseSimplifiedDate (intToStr minYear) config false "box".toList
  let maxDateResult := parseSimplifiedDate (intToStr maxYear) config false "box".toList
  { startDate := orDate (buildTimelineDate startDateResult) (jsNewDateMs startYear 0 1 0)
    endDate := orDate (buildTimelineDate endDateResult) (jsNewDateMs endYear 0 1 0)
    minDate := orDate (buildTimelineDate minDateResult) (jsNewDateMs minYear 0 1 0)
    maxDate := orDate (buildTimelineDate maxDateResult) (jsNewDateMs maxYear 0 1 0)
    divHeight := 400
    -- one more than the default max so that min actually works
    zoomOutLimit := 315360000000001
    zoomInLimit := 10 }

/-! ## `src/timelines/horizontal.ts` — item assembly -/

/-- The fields of a `CardContainer` event consumed by the date-validation
pipeline of `buildHorizontalTimeline`. -/
structure CardContainer where
  startDate : CleanedDateResultObject
  endDate : CleanedDateResultObject
  type : Option JStr
deriving DecidableEq

/-- The date/type fields of the `EventItem` handed to vis-timeline. -/
structure EventItem where
  start : Int
  end_ : Option Int
  type : JStr
deriving DecidableEq

/-- The per-event pipeline of `buildHorizontalTimeline` (horizontal.ts,
lines 110–224), restricted to its date/type logic: build the start (reject on
failure), build the end only when `endDate.normalizedDateString` is non-empty
(otherwise force type `point`), drop the end when `end <= start`, reject when
the start's year is outside `[1, currentYear + 1000]`, drop the end when its
year is outside that bound.  The source's checks for an invalid `Date` object
(`end?.toString() === 'Invalid Date'`, `isNaN(start.getTime())`, …) cannot
fire because `buildTimelineDate` returns `null` instead of an invalid `Date`.
`currentYear` is `new Date().getFullYear()`, passed as a parameter. -/
def assembleItem (event : CardContainer) (currentYear : Int) : Option EventItem :=
  match buildTimelineDate (some event.startDate) with
  | none => none
  | some start =>
    let itemType :=
      if event.endDate.normalizedDateString = [] then
        validateTimelineType (some "point".toList)
      else validateTimelineType event.type
    let end0 : Option Int :=
      if event.endDate.normalizedDateString = [] then none
      else buildTimelineDate (some event.endDate)
    -- Ensure end date is after start date if both exist
    let end1 : Option Int :=
      match end0 with
      | some e => if e ≤ start then none else some e
      | none => none
    -- Additional validation for extreme dates
    if getFullYear start < 1 ∨ currentYear + 1000 < getFullYear start then none
    else
      let end2 : Option Int :=
        match end1 with
        | some e =>
          if getFullYear e < 1 ∨ currentYear + 1000 < getFullYear e then none
          else some e
        | none => none
      some { start := start, end_ := end2, type := itemType }

/-! ## `src/timelines/horizontal.ts` — viewport sanitization -/

/-- The viewport fields of the vis-timeline `options` object.  A date field is
`none` when the `Date` is invalid; a zoom field is `none` when the number is
non-finite. -/
structure Viewport where
  start : Option Int
  end_ : Option Int
  min : Option Int
  max : Option Int
  zoomMin : Option Int
  zoomMax : Option Int
deriving DecidableEq

/-- `365 * 24 * 60 * 60 * 1000` (horizontal.ts `oneYear`). -/
def oneYearMs : Int := 365 * 24 * 60 * 60 * 1000

/-- Per-field pass of the sanitizer's `for (const field of dateFields)` loop:
an invalid date, or one whose year is outside `[1900, 2100]`, is replaced by
the field's fixed fallback (`new Date(2000,0,1)` for start/min,
`new Date(2030,0,1)` for end/max). -/
def clampDateField (f : Option Int) (fallback : Int) : Int :=
  match f with
  | none => fallback
  | some t =>
    if getFullYear t < 1900 ∨ 2100 < getFullYear t then fallback else t

/-- `new Date(2000, 0, 1)`. -/
def fallbackStartMin : Int := makeDateMs 2000 0 1 0

/-- `new Date(2030, 0, 1)`. -/
def fallbackEndMax : Int := makeDateMs 2030 0 1 0

/-- The viewport-sanitization pass of `buildHorizontalTimeline`
(horizontal.ts, lines 317–388), run unconditionally on whatever window was
selected before it reaches the vis-timeline constructor: per-field
validity/extreme-year clamp, then `end := start + 1yr` when `start >= end`,
`min := max − 10yr` when `min >= max`, span repair to `[1yr, 100yr]`, and
zoom-limit repair. -/
def sanitizeViewport (v : Viewport) : Viewport :=
  let s := clampDateField v.start fallbackStartMin
  let e0 := clampDateField v.end_ fallbackEndMax
  let mn0 := clampDateField v.min fallbackStartMin
  let mx := clampDateField v.max fallbackEndMax
  -- Ensure start is before end and min is before max
  let e := if e0 ≤ s then s + 365 * 24 * 60 * 60 * 1000 else e0
  let mn1 := if mx ≤ mn0 then mx - 10 * 365 * 24 * 60 * 60 * 1000 else mn0
  -- Additional safety check - ensure min/max span is reasonable
  let timeDiff := mx - mn1
  let mn2 :=
    if timeDiff < oneYearMs then mx - 10 * oneYearMs
    else if 100 * oneYearMs < timeDiff then mx - 50 * oneYearMs
    else mn1
  -- Validate zoom limits
  let zoomMax0 :=
    match v.zoomMax with
    | none => 315360000000000
    | some z => if z ≤ 0 then 315360000000000 else z
  let zoomMin0 :=
    match v.zoomMin with
    | none => 10
    | some z => if z ≤ 0 then 10 else z
  -- Ensure zoomMin is less than zoomMax
  let zoomMax1 := if zoomMax0 ≤ zoomMin0 then zoomMin0 * 1000 else zoomMax0
  { start := some s, end_ := some e, min := some mn2, max := some mx,
    zoomMin := some zoomMin0, zoomMax := some zoomMax1 }

/-! ## Calendar lemmas -/

theorem gday_lower (d : Int) : gday ((400 * (d + 719468)) / 146097 - 2) ≤ d := by
  unfold gday
  omega

theorem gday_upper (d : Int) : d < gday ((400 * (d + 719468)) / 146097 + 3) := by
  unfold gday
  omega

theorem gday_mono {y y' : Int} (h : y ≤ y') : gday y ≤ gday y' := by
  unfold gday
  omega

/-- `yearOfDay` is a right inverse of `gday` in the interval sense:
day `d` lies in the year `yearOfDay d`. -/
theorem yearOfDay_interval (d : Int) :
    gday (yearOfDay d) ≤ d ∧ d < gday (yearOfDay d + 1) := by
  unfold yearOfDay
  have h1 := gday_lower d
  have h2 := gday_upper d
  set y0 := (400 * (d + 719468)) / 146097 with hy0
  have e1 : y0 - 2 + 1 = y0 - 1 := by ring
  have e2 : y0 - 1 + 1 = y0 := by ring
  have e3 : y0 + 1 + 1 = y0 + 2 := by ring
  have e4 : y0 + 2 + 1 = y0 + 3 := by ring
  by_cases c1 : d < gday (y0 - 1)
  · simp only [c1, if_true]
    rw [e1]
    exact ⟨h1, c1⟩
  · simp only [c1, if_false]
    by_cases c2 : d < gday y0
    · simp only [c2, if_true]
      rw [e2]
      exact ⟨by omega, c2⟩
    · simp only [c2, if_false]
      by_cases c3 : d < gday (y0 + 1)
      · simp only [c3, if_true]
        exact ⟨by omega, trivial⟩
      · simp only [c3, if_false]
        by_cases c4 : d < gday (y0 + 2)
        · simp only [c4, if_true]
          rw [e3]
          exact ⟨by omega, c4⟩
        · simp only [c4, if_false]
          rw [e4]
          exact ⟨by omega, h2⟩

theorem yearOfDay_ge_iff (Y d : Int) : Y ≤ yearOfDay d ↔ gday Y ≤ d := by
  constructor
  · intro h
    exact le_trans (gday_mono h) (yearOfDay_interval d).1
  · intro h
    by_contra hc
    push_neg at hc
    have h1 : yearOfDay d + 1 ≤ Y := by omega
    have h2 := (yearOfDay_interval d).2
    have h3 := gday_mono h1
    omega

/-- Bridge between `getFullYear` and concrete January-1 time values. -/
theorem le_getFullYear_iff (Y t : Int) :
    Y ≤ getFullYear t ↔ 86400000 * gday Y ≤ t := by
  unfold getFullYear
  rw [yearOfDay_ge_iff]
  omega

theorem getFullYear_lt_iff (Y t : Int) :
    getFullYear t < Y ↔ t < 86400000 * gday Y := by
  rw [← not_le, ← not_le, le_getFullYear_iff]

theorem getFullYear_mono {t t' : Int} (h : t ≤ t') :
    getFullYear t ≤ getFullYear t' := by
  rw [le_getFullYear_iff]
  have h1 := (le_getFullYear_iff (getFullYear t) t).mp le_rfl
  omega

/-! ## Sanitizer helper lemmas -/

theorem clampDateField_range (f : Option Int) (fb : Int)
    (h1 : 1900 ≤ getFullYear fb) (h2 : getFullYear fb ≤ 2100) :
    1900 ≤ getFullYear (clampDateField f fb) ∧
      getFullYear (clampDateField f fb) ≤ 2100 := by
  cases f with
  | none => exact ⟨h1, h2⟩
  | some t =>
    simp only [clampDateField]
    split_ifs with h
    · exact ⟨h1, h2⟩
    · push_neg at h
      omega

theorem clampDateField_keep (t : Int) (fb : Int)
    (h1 : 1900 ≤ getFullYear t) (h2 : getFullYear t ≤ 2100) :
    clampDateField (some t) fb = t := by
  simp only [clampDateField]
  rw [if_neg]
  omega

theorem clampDateField_replace (t : Int) (fb : Int)
    (h : getFullYear t < 1900 ∨ 2100 < getFullYear t) :
    clampDateField (some t) fb = fb := by
  simp only [clampDateField]
  rw [if_pos h]

theorem getFullYear_fallbackStartMin : getFullYear fallbackStartMin = 2000 := by
  decide

theorem getFullYear_fallbackEndMax : getFullYear fallbackEndMax = 2030 := by
  decide

/-! ## Claim C1 -/

/-- A viewport whose `end` exceeds its `max` yet passes sanitization
unchanged: `start` 2050-01-01, `end` 2060-01-01, `min` 2000-01-01,
`max` 2030-01-01, default zoom limits. -/
def viewportWideSpread : Viewport :=
  { start := some (makeDateMs 2050 0 1 0)
    end_ := some (makeDateMs 2060 0 1 0)
    min := some (makeDateMs 2000 0 1 0)
    max := some (makeDateMs 2030 0 1 0)
    zoomMin := some 10
    zoomMax := some 315360000000001 }

/-- C1 (counterexample): the claimed invariants `min ≤ start` and `max ≥ end`
do not hold after sanitization: on `viewportWideSpread` the sanitizer is the
identity, and the resulting window has `end` (2060-01-01) strictly greater
than `max` (2030-01-01). -/
theorem spec_c1_counterexample :
    (sanitizeViewport viewportWideSpread).end_ = some (makeDateMs 2060 0 1 0) ∧
    (sanitizeViewport viewportWideSpread).max = some (makeDateMs 2030 0 1 0) ∧
    makeDateMs 2030 0 1 0 < makeDateMs 2060 0 1 0 := by
  refine ⟨by decide, by decide, by decide⟩

/-- C1 (amended): for every viewport window (any start/end/min/max dates,
invalid ones included, and any zoom limits), the window produced by the
sanitization pass satisfies `start < end`, `min < max`,
`1 year ≤ max − min ≤ 100 years` (with 1 year = 365 days), and
`zoomInLimit < zoomOutLimit`, and all four date bounds are finite (present).
The claim's `min ≤ start` and `max ≥ end` are not enforced by the code and
are dropped (see `spec_c1_counterexample`). -/
theorem spec_c1_sanitize_invariants (v : Viewport) :
    ∃ s e mn mx zi zo,
      sanitizeViewport v = ⟨some s, some e, some mn, some mx, some zi, some zo⟩ ∧
      s < e ∧ mn < mx ∧ oneYearMs ≤ mx - mn ∧ mx - mn ≤ 100 * oneYearMs ∧
      zi < zo := by
  obtain ⟨vs, ve, vmn, vmx, vzi, vzo⟩ := v
  simp only [sanitizeViewport]
  refine ⟨_, _, _, _, _, _, rfl, ?_, ?_, ?_, ?_, ?_⟩
  · -- start < end
    split_ifs <;> omega
  · -- min < max
    unfold oneYearMs
    split_ifs <;> omega
  · -- 1 year ≤ max - min
    unfold oneYearMs
    split_ifs <;> omega
  · -- max - min ≤ 100 years
    unfold oneYearMs
    split_ifs <;> omega
  · -- zoomMin < zoomMax
    cases vzi <;> cases vzo <;> simp only [] <;> split_ifs <;> omega

/-- C1 (witness): the amended invariants at a concrete all-invalid viewport. -/
theorem spec_c1_sanitize_invariants_witness :
    ∃ s e mn mx zi zo,
      sanitizeViewport ⟨none, none, none, none, none, none⟩ =
        ⟨some s, some e, some mn, some mx, some zi, some zo⟩ ∧
      s < e ∧ mn < mx ∧ oneYearMs ≤ mx - mn ∧ mx - mn ≤ 100 * oneYearMs ∧
      zi < zo :=
  spec_c1_sanitize_invariants ⟨none, none, none, none, none, none⟩

/-! ## Claim C2 -/

/-- Every output of the sanitizer satisfies: its four date bounds are present,
`start`/`max` have years in `[1900, 2100]`, `end` either has a year in range or
equals `start + 1yr` beyond 2100, `min` either has a year in range or equals
`max − 10yr` before 1900, plus the ordering/span/zoom invariants. -/
theorem sanitize_output_props (v : Viewport) :
    ∃ s e mn mx zi zo,
      sanitizeViewport v = ⟨some s, some e, some mn, some mx, some zi, some zo⟩ ∧
      (1900 ≤ getFullYear s ∧ getFullYear s ≤ 2100) ∧
      (1900 ≤ getFullYear mx ∧ getFullYear mx ≤ 2100) ∧
      ((1900 ≤ getFullYear e ∧ getFullYear e ≤ 2100) ∨
        (e = s + 365 * 24 * 60 * 60 * 1000 ∧ 86400000 * gday 2101 ≤ e)) ∧
      s < e ∧
      ((1900 ≤ getFullYear mn ∧ getFullYear mn ≤ 2100) ∨
        (mn = mx - 10 * oneYearMs ∧ mx - 10 * oneYearMs < 86400000 * gday 1900)) ∧
      mn < mx ∧ oneYearMs ≤ mx - mn ∧ mx - mn ≤ 100 * oneYearMs ∧
      0 < zi ∧ zi < zo := by
  obtain ⟨vs, ve, vmn, vmx, vzi, vzo⟩ := v
  have hs := clampDateField_range vs fallbackStartMin (by decide) (by decide)
  have he0 := clampDateField_range ve fallbackEndMax (by decide) (by decide)
  have hmn0 := clampDateField_range vmn fallbackStartMin (by decide) (by decide)
  have hmx := clampDateField_range vmx fallbackEndMax (by decide) (by decide)
  have hone : oneYearMs = 31536000000 := rfl
  simp only [sanitizeViewport]
  refine ⟨_, _, _, _, _, _, rfl, hs, hmx, ?_, ?_, ?_, ?_, ?_, ?_, ?_, ?_⟩
  · -- end: in range, or start + 1yr past year 2100
    split_ifs with h
    · by_cases hr : getFullYear (clampDateField vs fallbackStartMin +
          365 * 24 * 60 * 60 * 1000) ≤ 2100
      · left
        constructor
        · exact le_trans hs.1 (getFullYear_mono (by omega))
        · exact hr
      · right
        refine ⟨rfl, ?_⟩
        exact (le_getFullYear_iff 2101 _).mp (by omega)
    · left
      exact he0
  · -- start < end
    split_ifs with h <;> omega
  · -- min: in range, or max − 10yr before year 1900
    split_ifs with h1 h2 h3 h4 h5
    · -- min ≥ max, span < 1yr (always true there): min := max − 10yr
      by_cases hr : 1900 ≤ getFullYear (clampDateField vmx fallbackEndMax -
          10 * oneYearMs)
      · left
        exact ⟨hr, le_trans (getFullYear_mono (by omega)) hmx.2⟩
      · right
        refine ⟨rfl, ?_⟩
        exact (getFullYear_lt_iff 1900 _).mp (by omega)
    · -- min ≥ max but span > 100yr: impossible (span is exactly 10yr)
      exfalso
      omega
    · -- min ≥ max, span already in bounds: min = max − 10yr (numerals)
      by_cases hr : 1900 ≤ getFullYear (clampDateField vmx fallbackEndMax -
          10 * (365 * 24 * 60 * 60 * 1000))
      · left
        exact ⟨hr, le_trans (getFullYear_mono (by omega)) hmx.2⟩
      · right
        constructor
        · omega
        · have := (getFullYear_lt_iff 1900 (clampDateField vmx fallbackEndMax -
            10 * (365 * 24 * 60 * 60 * 1000))).mp (by omega)
          omega
    · -- min < max, span < 1yr: min := max − 10yr
      by_cases hr : 1900 ≤ getFullYear (clampDateField vmx fallbackEndMax -
          10 * oneYearMs)
      · left
        exact ⟨hr, le_trans (getFullYear_mono (by omega)) hmx.2⟩
      · right
        refine ⟨rfl, ?_⟩
        exact (getFullYear_lt_iff 1900 _).mp (by omega)
    · -- min < max, span > 100yr: min := max − 50yr, provably in range
      left
      constructor
      · have h0 := (le_getFullYear_iff 1900 (clampDateField vmn fallbackStartMin)).mp hmn0.1
        exact (le_getFullYear_iff 1900 _).mpr (by omega)
      · exact le_trans (getFullYear_mono (by omega)) hmx.2
    · -- min < max, span in bounds: min kept
      left
      exact hmn0
  · -- min < max
    split_ifs <;> omega
  · -- 1yr ≤ max − min
    split_ifs <;> omega
  · -- max − min ≤ 100yr
    split_ifs <;> omega
  · -- 0 < zoomMin
    cases vzi <;> simp only [] <;> (try split_ifs) <;> omega
  · -- zoomMin < zoomMax
    cases vzi <;> cases vzo <;> simp only [] <;> (try split_ifs) <;> omega

/-- Every viewport satisfying the output invariants of `sanitize_output_props`
is a fixed point of the sanitizer. -/
theorem sanitize_fixed (s e mn mx zi zo : Int)
    (hs : 1900 ≤ getFullYear s ∧ getFullYear s ≤ 2100)
    (hmx : 1900 ≤ getFullYear mx ∧ getFullYear mx ≤ 2100)
    (he : (1900 ≤ getFullYear e ∧ getFullYear e ≤ 2100) ∨
      (e = s + 365 * 24 * 60 * 60 * 1000 ∧ 86400000 * gday 2101 ≤ e))
    (hse : s < e)
    (hmn : (1900 ≤ getFullYear mn ∧ getFullYear mn ≤ 2100) ∨
      (mn = mx - 10 * oneYearMs ∧ mx - 10 * oneYearMs < 86400000 * gday 1900))
    (hmnmx : mn < mx)
    (hspan1 : oneYearMs ≤ mx - mn) (hspan2 : mx - mn ≤ 100 * oneYearMs)
    (hzi : 0 < zi) (hzio : zi < zo) :
    sanitizeViewport ⟨some s, some e, some mn, some mx, some zi, some zo⟩ =
      ⟨some s, some e, some mn, some mx, some zi, some zo⟩ := by
  have hone : oneYearMs = 31536000000 := rfl
  simp only [sanitizeViewport, Viewport.mk.injEq, Option.some.injEq]
  have hks : clampDateField (some s) fallbackStartMin = s :=
    clampDateField_keep s _ hs.1 hs.2
  have hkmx : clampDateField (some mx) fallbackEndMax = mx :=
    clampDateField_keep mx _ hmx.1 hmx.2
  refine ⟨hks, ?_, ?_, hkmx, ?_, ?_⟩
  · -- end field
    rw [hks]
    rcases he with hr | ⟨heq, hbig⟩
    · rw [clampDateField_keep e _ hr.1 hr.2, if_neg (not_le.mpr hse)]
    · by_cases hr2 : 1900 ≤ getFullYear e ∧ getFullYear e ≤ 2100
      · rw [clampDateField_keep e _ hr2.1 hr2.2, if_neg (not_le.mpr hse)]
      · rw [clampDateField_replace e _ (by omega)]
        have hfb : fallbackEndMax = 1893456000000 := by decide
        have hg : gday 2101 = 47847 := by decide
        rw [if_pos (by omega)]
        omega
  · -- min field
    rw [hkmx]
    rcases hmn with hr | ⟨heq, hsmall⟩
    · rw [clampDateField_keep mn _ hr.1 hr.2, if_neg (not_le.mpr hmnmx),
        if_neg (show ¬(mx - mn < oneYearMs) by omega),
        if_neg (show ¬(100 * oneYearMs < mx - mn) by omega)]
    · by_cases hr2 : 1900 ≤ getFullYear mn ∧ getFullYear mn ≤ 2100
      · rw [clampDateField_keep mn _ hr2.1 hr2.2, if_neg (not_le.mpr hmnmx),
          if_neg (show ¬(mx - mn < oneYearMs) by omega),
          if_neg (show ¬(100 * oneYearMs < mx - mn) by omega)]
      · rw [clampDateField_replace mn _ (by omega)]
        have hg : gday 1900 = -25567 := by decide
        have hfbs : fallbackStartMin = 946684800000 := by decide
        have hmxb : mx ≤ fallbackStartMin := by omega
        rw [if_pos hmxb,
          if_neg (show ¬(mx - (mx - 10 * 365 * 24 * 60 * 60 * 1000) < oneYearMs)
            by omega),
          if_neg (show ¬(100 * oneYearMs < mx - (mx - 10 * 365 * 24 * 60 * 60 * 1000))
            by omega)]
        omega
  · -- zoomMin field
    rw [if_neg (not_le.mpr hzi)]
  · -- zoomMax field
    have h1 : (if zo ≤ 0 then (315360000000000 : Int) else zo) = zo :=
      if_neg (by omega)
    have h2 : (if zi ≤ 0 then (10 : Int) else zi) = zi :=
      if_neg (not_le.mpr hzi)
    rw [h1, h2, if_neg (not_le.mpr hzio)]

/-- C2: the viewport sanitizer is idempotent — applying the sanitization pass
to its own output leaves every field (start, end, min, max, zoomMin/zoomInLimit,
zoomMax/zoomOutLimit) unchanged. -/
theorem spec_c2_sanitize_idempotent (v : Viewport) :
    sanitizeViewport (sanitizeViewport v) = sanitizeViewport v := by
  obtain ⟨s, e, mn, mx, zi, zo, hout, hs, hmx, he, hse, hmn, hmnmx, hspan1,
    hspan2, hzi, hzio⟩ := sanitize_output_props v
  rw [hout]
  exact sanitize_fixed s e mn mx zi zo hs hmx he hse hmn hmnmx hspan1 hspan2 hzi hzio

/-- C2 (witness): idempotence at a concrete viewport with an inverted range. -/
theorem spec_c2_sanitize_idempotent_witness :
    sanitizeViewport (sanitizeViewport
      ⟨some (makeDateMs 2100 11 31 0), some (makeDateMs 1900 0 1 0),
        none, some (makeDateMs 1900 0 5 0), some 999, some 10⟩) =
    sanitizeViewport
      ⟨some (makeDateMs 2100 11 31 0), some (makeDateMs 1900 0 1 0),
        none, some (makeDateMs 1900 0 5 0), some 999, some 10⟩ :=
  spec_c2_sanitize_idempotent _

/-! ## Claims C4 and C5 -/

/-- Test fixture: a parse-result record with the given components whose four
string fields all equal `norm`. -/
def mkDateResult (y m d h : Int) (norm : JStr) : CleanedDateResultObject :=
  ⟨norm, norm, norm, norm, y, m, d, h⟩

/-- An event whose start (year 5000) and end (year 4999) both build to valid
finite instants with `end ≤ start`. -/
def eventFarFutureRange : CardContainer :=
  ⟨mkDateResult 5000 0 1 0 "5000-01-01-00".toList,
   mkDateResult 4999 0 1 0 "4999-01-01-00".toList,
   some "box".toList⟩

/-- C4 (counterexample): an event whose start and end both build to valid
finite instants with `end ≤ start` is nevertheless dropped from the render
set (with `currentYear = 2025`), because after the demotion the start's year
(5000) fails the `[1, currentYear + 1000]` bound.  So "keeps the event"
does not hold for every such event. -/
theorem spec_c4_counterexample :
    (buildTimelineDate (some eventFarFutureRange.startDate)).isSome = true ∧
    (buildTimelineDate (some eventFarFutureRange.endDate)).isSome = true ∧
    ((buildTimelineDate (some eventFarFutureRange.endDate)).getD 0 ≤
      (buildTimelineDate (some eventFarFutureRange.startDate)).getD 0) ∧
    assembleItem eventFarFutureRange 2025 = none := by
  refine ⟨by decide, by decide, by decide, by decide⟩

/-- C4 (amended): for every candidate event whose start builds to a valid
finite instant **whose year lies in `[1, currentYear + 1000]`** and whose end
also builds to a valid finite instant with `end ≤ start`, the item assembler
keeps the event in the render set with its end discarded (demotion to a
point-in-time item); it never rejects an event solely because `end ≤ start`. -/
theorem spec_c4_demote_on_end_le_start (event : CardContainer)
    (currentYear s e : Int)
    (hstart : buildTimelineDate (some event.startDate) = some s)
    (hne : event.endDate.normalizedDateString ≠ [])
    (hend : buildTimelineDate (some event.endDate) = some e)
    (hle : e ≤ s)
    (hy1 : 1 ≤ getFullYear s) (hy2 : getFullYear s ≤ currentYear + 1000) :
    assembleItem event currentYear =
      some { start := s, end_ := none, type := validateTimelineType event.type } := by
  simp only [assembleItem, hstart, hend, if_neg hne, if_pos hle]
  rw [if_neg (show ¬(getFullYear s < 1 ∨ currentYear + 1000 < getFullYear s)
    by omega)]

/-- An event with a valid start (year 2000) and a valid earlier end
(year 1999). -/
def eventBackwardsRange : CardContainer :=
  ⟨mkDateResult 2000 0 1 0 "2000-01-01-00".toList,
   mkDateResult 1999 0 1 0 "1999-01-01-00".toList,
   some "box".toList⟩

/-- C4 (witness): the amended demotion behaviour at a concrete event. -/
theorem spec_c4_demote_on_end_le_start_witness :
    assembleItem eventBackwardsRange 2025 =
      some { start := makeDateMs 2000 0 1 0, end_ := none,
             type := validateTimelineType eventBackwardsRange.type } :=
  spec_c4_demote_on_end_le_start eventBackwardsRange 2025
    (makeDateMs 2000 0 1 0) (makeDateMs 1999 0 1 0)
    (by decide) (by decide) (by decide) (by decide) (by decide) (by decide)

/-- C5: (a) an event whose built start instant has a year outside
`[1, currentYear + 1000]` is rejected (dropped) regardless of its other
fields; (b) if the start's year is within the bound but the (valid, later)
end's year is outside it, the end is discarded and the event is kept. -/
theorem spec_c5_extreme_year_policy (event : CardContainer)
    (currentYear s e : Int) :
    (buildTimelineDate (some event.startDate) = some s →
      (getFullYear s < 1 ∨ currentYear + 1000 < getFullYear s) →
      assembleItem event currentYear = none) ∧
    (buildTimelineDate (some event.startDate) = some s →
      1 ≤ getFullYear s → getFullYear s ≤ currentYear + 1000 →
      event.endDate.normalizedDateString ≠ [] →
      buildTimelineDate (some event.endDate) = some e →
      s < e →
      (getFullYear e < 1 ∨ currentYear + 1000 < getFullYear e) →
      assembleItem event currentYear =
        some { start := s, end_ := none,
               type := validateTimelineType event.type }) := by
  constructor
  · intro hstart hy
    simp only [assembleItem, hstart]
    rw [if_pos hy]
  · intro hstart hy1 hy2 hne hend hlt hey
    simp only [assembleItem, hstart, hend, if_neg hne,
      if_neg (not_le.mpr hlt)]
    rw [if_neg (show ¬(getFullYear s < 1 ∨ currentYear + 1000 < getFullYear s)
      by omega), if_pos hey]

/-- An event whose start (year 5000) is extreme and whose end date is absent. -/
def eventFarFutureStart : CardContainer :=
  ⟨mkDateResult 5000 0 1 0 "5000-01-01-00".toList,
   mkDateResult 0 0 0 0 [],
   some "box".toList⟩

/-- An event with a valid start (year 2000) and a valid later end whose year
(4000) is outside `[1, 2025 + 1000]`. -/
def eventExtremeEnd : CardContainer :=
  ⟨mkDateResult 2000 0 1 0 "2000-01-01-00".toList,
   mkDateResult 4000 0 1 0 "4000-01-01-00".toList,
   some "box".toList⟩

/-- C5 (witness): both policies at concrete events with `currentYear = 2025`. -/
theorem spec_c5_extreme_year_policy_witness :
    assembleItem eventFarFutureStart 2025 = none ∧
    assembleItem eventExtremeEnd 2025 =
      some { start := makeDateMs 2000 0 1 0, end_ := none,
             type := validateTimelineType eventExtremeEnd.type } :=
  ⟨(spec_c5_extreme_year_policy eventFarFutureStart 2025
      (makeDateMs 5000 0 1 0) 0).1 (by decide) (by decide),
   (spec_c5_extreme_year_policy eventExtremeEnd 2025
      (makeDateMs 2000 0 1 0) (makeDateMs 4000 0 1 0)).2
      (by decide) (by decide) (by decide) (by decide) (by decide) (by decide)
      (by decide)⟩

/-! ## Claim C7 -/

/-- C7 (counterexample): `buildTimelineDate` on year 1899, month index 1
(February), day 30, hour 0 — all components inside the claimed bounds, and the
would-be instant well inside the finite range — returns `null`, because the
token-routed (luxon) path used for `1 ≤ year ≤ 1900` validates days-per-month.
So "bounds-only checks" and the claimed exact null-characterization fail. -/
theorem spec_c7_counterexample :
    buildTimelineDate (some (mkDateResult 1899 1 30 0 [])) = none ∧
    (mkDateResult 1899 1 30 0 []).year ≠ 0 ∧
    0 ≤ (mkDateResult 1899 1 30 0 []).month ∧
    (mkDateResult 1899 1 30 0 []).month ≤ 11 ∧
    1 ≤ (mkDateResult 1899 1 30 0 []).day ∧
    (mkDateResult 1899 1 30 0 []).day ≤ 31 ∧
    0 ≤ (mkDateResult 1899 1 30 0 []).hour ∧
    (mkDateResult 1899 1 30 0 []).hour ≤ 23 ∧
    -8640000000000000 ≤ makeDateMs 1899 1 30 0 ∧
    makeDateMs 1899 1 30 0 ≤ 8640000000000000 := by
  refine ⟨by decide, by decide, by decide, by decide, by decide, by decide,
    by decide, by decide, by decide, by decide⟩

/-- C7 (amended): `buildTimelineDate` returns null exactly for null input,
year 0, month outside `[0,11]`, day outside `[1,31]`, hour outside `[0,23]`,
an instant outside the representable (finite) range, **or — on the
token-routed path taken for `1 ≤ year ≤ 1900` — a day exceeding the length of
the month**.  On the direct path (`year < 0` or `year > 1900`) the checks are
bounds-only (day 30 of the 28-day February 2001 is accepted), and in-bounds
components with years −50, 1, 1899, 1901 and 9999 (on January 1) are
accepted. -/
theorem spec_c7_buildDate_null_characterization (r : CleanedDateResultObject) :
    (buildTimelineDate none = none) ∧
    (buildTimelineDate (some r) = none ↔
      (r.year = 0 ∨ r.month < 0 ∨ 11 < r.month ∨ r.day < 1 ∨ 31 < r.day ∨
       r.hour < 0 ∨ 23 < r.hour ∨
       ((r.year < 0 ∨ 1900 < r.year) ∧
         (makeDateMs r.year r.month r.day r.hour < -8640000000000000 ∨
          8640000000000000 < makeDateMs r.year r.month r.day r.hour)) ∨
       (0 < r.year ∧ r.year ≤ 1900 ∧ daysInMonth r.year (r.month + 1) < r.day))) ∧
    (buildTimelineDate (some (mkDateResult 2001 1 30 0 []))).isSome = true ∧
    (buildTimelineDate (some (mkDateResult (-50) 0 1 0 []))).isSome = true ∧
    (buildTimelineDate (some (mkDateResult 1 0 1 0 []))).isSome = true ∧
    (buildTimelineDate (some (mkDateResult 1899 0 1 0 []))).isSome = true ∧
    (buildTimelineDate (some (mkDateResult 1901 0 1 0 []))).isSome = true ∧
    (buildTimelineDate (some (mkDateResult 9999 0 1 0 []))).isSome = true := by
  refine ⟨rfl, ?_, by decide, by decide, by decide, by decide, by decide, by decide⟩
  simp only [buildTimelineDate, jsNewDateMs]
  split_ifs <;> simp_all <;> omega

/-- C7 (witness): the characterization instantiated at the in-bounds
February-30 record of year 1899, re-deriving the null result from the
days-per-month disjunct. -/
theorem spec_c7_buildDate_null_characterization_witness :
    buildTimelineDate (some (mkDateResult 1899 1 30 0 [])) = none :=
  ((spec_c7_buildDate_null_characterization (mkDateResult 1899 1 30 0 [])).2.1).mpr
    (by decide)

/-! ## Claim C6 -/

/-- C6: for every config with positive field widths and every string of digits
whose year slice (the first `yearLength` characters) parses to a non-zero
value, `parseDate` (with the default `isEndDate = false`, `eventType = 'box'`
arguments) returns a non-null result whose `year` field is that value. -/
theorem spec_c6_year_slice (s : JStr) (cfg : DateParsingConfig)
    (hpos : 0 < cfg.yearLength ∧ 0 < cfg.monthLength ∧ 0 < cfg.dayLength ∧
      0 < cfg.hourLength ∧ 0 < cfg.minuteLength)
    (hall : ∀ c ∈ s, jsIsDigit c = true)
    (hy : digitsToNat (s.take cfg.yearLength) ≠ 0) :
    (parseSimplifiedDate s cfg).isSome = true ∧
      (parseSimplifiedDate s cfg).map (fun r => r.year) =
        some (digitsToNat (s.take cfg.yearLength) : Int) := by
  have hfs : s.filter jsIsDigit = s := List.filter_eq_self.mpr hall
  have hsne : s ≠ [] := by
    intro h
    subst h
    simp [digitsToNat] at hy
  have hyne : s.take cfg.yearLength ≠ [] := by
    intro h
    rw [h] at hy
    simp [digitsToNat] at hy
  have hy' : ¬((digitsToNat (s.take cfg.yearLength) : Int) = 0) := by
    exact_mod_cast hy
  have hinf : ¬((false = true) ∧ "box".toList ≠ "point".toList ∧
      (s.drop cfg.yearLength).take cfg.monthLength = [] ∧
      ((s.drop cfg.yearLength).drop cfg.monthLength).take cfg.dayLength = [] ∧
      (((s.drop cfg.yearLength).drop cfg.monthLength).drop cfg.dayLength).take
        cfg.hourLength = [] ∧
      ((((s.drop cfg.yearLength).drop cfg.monthLength).drop cfg.dayLength).drop
        cfg.hourLength).take cfg.minuteLength = []) := fun h => by simp at h
  constructor
  · simp only [parseSimplifiedDate, hfs, if_neg hsne, if_neg hyne, if_neg hy',
      if_neg hinf, Option.isSome_some]
  · simp only [parseSimplifiedDate, hfs, if_neg hsne, if_neg hyne, if_neg hy',
      if_neg hinf]
    rfl

/-! ## Claim C3 -/

/-- The year slice consumed by the parser (`yearStr`). -/
def yearSlice (s : JStr) (cfg : DateParsingConfig) : JStr :=
  (s.filter jsIsDigit).take cfg.yearLength

/-- The month slice consumed by the parser (`monthStr`). -/
def monthSlice (s : JStr) (cfg : DateParsingConfig) : JStr :=
  ((s.filter jsIsDigit).drop cfg.yearLength).take cfg.monthLength

/-- The day slice consumed by the parser (`dayStr`). -/
def daySlice (s : JStr) (cfg : DateParsingConfig) : JStr :=
  (((s.filter jsIsDigit).drop cfg.yearLength).drop cfg.monthLength).take cfg.dayLength

/-- The hour slice consumed by the parser (`hourStr`). -/
def hourSlice (s : JStr) (cfg : DateParsingConfig) : JStr :=
  ((((s.filter jsIsDigit).drop cfg.yearLength).drop cfg.monthLength).drop
    cfg.dayLength).take cfg.hourLength

/-- The minute slice consumed by the parser (`minuteStr`). -/
def minuteSlice (s : JStr) (cfg : DateParsingConfig) : JStr :=
  (((((s.filter jsIsDigit).drop cfg.yearLength).drop cfg.monthLength).drop
    cfg.dayLength).drop cfg.hourLength).take cfg.minuteLength

/-- When any finer slice (month/day/hour/minute) is present, the `isEndDate`
flag is irrelevant: end-date inference is disabled and the parse equals the
start-date parse. -/
theorem parse_isEnd_eq_of_finer (s : JStr) (cfg : DateParsingConfig) (ty : JStr)
    (h : ¬(monthSlice s cfg = [] ∧ daySlice s cfg = [] ∧ hourSlice s cfg = [] ∧
      minuteSlice s cfg = [])) :
    parseSimplifiedDate s cfg true ty = parseSimplifiedDate s cfg false ty := by
  simp only [monthSlice, daySlice, hourSlice, minuteSlice] at h
  simp only [parseSimplifiedDate, Bool.false_eq_true, false_and, if_false, true_and]
  rw [if_neg (show ¬(ty ≠ "point".toList ∧
      (List.drop cfg.yearLength (List.filter jsIsDigit s)).take cfg.monthLength = [] ∧
      ((List.drop cfg.yearLength (List.filter jsIsDigit s)).drop
        cfg.monthLength).take cfg.dayLength = [] ∧
      (((List.drop cfg.yearLength (List.filter jsIsDigit s)).drop
        cfg.monthLength).drop cfg.dayLength).take cfg.hourLength = [] ∧
      ((((List.drop cfg.yearLength (List.filter jsIsDigit s)).drop
        cfg.monthLength).drop cfg.dayLength).drop cfg.hourLength).take
          cfg.minuteLength = [])
    from fun hc => h ⟨hc.2.1, hc.2.2.1, hc.2.2.2.1, hc.2.2.2.2⟩)]

/-- C3: for every date string whose cleaned digits contain a non-zero year
slice and no month/day/hour/minute digits at all, parsing with
`isEndDate = true` and an `eventType` other than `point` yields
`{year: parsed year + 1, month: 0, day: 1}`; with `eventType = 'point'` it
yields `{year: parsed year, month: 0, day: 1}` (no inference); and the
presence of any finer-component slice disables the inference entirely (the
parse then equals the start-date parse). -/
theorem spec_c3_end_date_inference (s : JStr) (cfg : DateParsingConfig)
    (ty : JStr) (hy : digitsToNat (yearSlice s cfg) ≠ 0) :
    ((monthSlice s cfg = [] ∧ daySlice s cfg = [] ∧ hourSlice s cfg = [] ∧
        minuteSlice s cfg = []) →
      (ty ≠ "point".toList →
        (parseSimplifiedDate s cfg true ty).map (fun r => (r.year, r.month, r.day)) =
          some ((digitsToNat (yearSlice s cfg) : Int) + 1, 0, 1)) ∧
      (parseSimplifiedDate s cfg true "point".toList).map
          (fun r => (r.year, r.month, r.day)) =
        some ((digitsToNat (yearSlice s cfg) : Int), 0, 1)) ∧
    (¬(monthSlice s cfg = [] ∧ daySlice s cfg = [] ∧ hourSlice s cfg = [] ∧
        minuteSlice s cfg = []) →
      parseSimplifiedDate s cfg true ty = parseSimplifiedDate s cfg false ty) := by
  have hsne : s ≠ [] := by
    intro h
    subst h
    simp [yearSlice, digitsToNat] at hy
  have hyne : (s.filter jsIsDigit).take cfg.yearLength ≠ [] := by
    intro h
    simp only [yearSlice] at hy
    rw [h] at hy
    simp [digitsToNat] at hy
  have hy' : ¬((digitsToNat ((s.filter jsIsDigit).take cfg.yearLength) : Int) = 0) := by
    simp only [yearSlice] at hy
    exact_mod_cast hy
  constructor
  · rintro ⟨hm, hd, hh, hmi⟩
    simp only [monthSlice, daySlice, hourSlice, minuteSlice] at hm hd hh hmi
    constructor
    · intro hty
      simp only [parseSimplifiedDate, yearSlice, if_neg hsne, if_neg hyne,
        if_neg hy', hm, hd, hh, hmi, and_true, true_and]
      rw [if_pos hty]
      simp [createDateResult]
    · simp only [parseSimplifiedDate, yearSlice, if_neg hsne, if_neg hyne,
        if_neg hy', hm, hd, hh, hmi]
      simp [createDateResult, digitsToNat]
  · exact parse_isEnd_eq_of_finer s cfg ty

/-- C3 (witness): the inference at `'2025'` with the default config — `box`
end dates become 2026-01-01, `point` end dates stay 2025-01-01. -/
theorem spec_c3_end_date_inference_witness :
    (parseSimplifiedDate "2025".toList ⟨4, 2, 2, 2, 2⟩ true "box".toList).map
        (fun r => (r.year, r.month, r.day)) =
      some ((digitsToNat (yearSlice "2025".toList ⟨4, 2, 2, 2, 2⟩) : Int) + 1, 0, 1) ∧
    (parseSimplifiedDate "2025".toList ⟨4, 2, 2, 2, 2⟩ true "point".toList).map
        (fun r => (r.year, r.month, r.day)) =
      some ((digitsToNat (yearSlice "2025".toList ⟨4, 2, 2, 2, 2⟩) : Int), 0, 1) :=
  ⟨((spec_c3_end_date_inference "2025".toList ⟨4, 2, 2, 2, 2⟩ "box".toList
      (by decide)).1 (by decide)).1 (by decide),
   ((spec_c3_end_date_inference "2025".toList ⟨4, 2, 2, 2, 2⟩ "box".toList
      (by decide)).1 (by decide)).2⟩

/-- C6 (witness): the year slice of `'20250725'` with the default config. -/
theorem spec_c6_year_slice_witness :
    (parseSimplifiedDate "20250725".toList ⟨4, 2, 2, 2, 2⟩).isSome = true ∧
    (parseSimplifiedDate "20250725".toList ⟨4, 2, 2, 2, 2⟩).map (fun r => r.year) =
      some (digitsToNat ("20250725".toList.take 4) : Int) :=
  spec_c6_year_slice "20250725".toList ⟨4, 2, 2, 2, 2⟩
    (by decide) (by decide) (by decide)

/-! ## Claim C9 -/

/-- Two digit-strings whose year/month/day/hour slices coincide and whose
minute slices fold into the same hour correction parse (as start dates) to
results with identical numeric components. -/
theorem parse_components_congr (s t : JStr) (cfg : DateParsingConfig)
    (ty : JStr)
    (hfs : s.filter jsIsDigit = s) (hft : t.filter jsIsDigit = t)
    (h0 : s = [] ↔ t = [])
    (hY : t.take cfg.yearLength = s.take cfg.yearLength)
    (hM : (t.drop cfg.yearLength).take cfg.monthLength =
      (s.drop cfg.yearLength).take cfg.monthLength)
    (hD : ((t.drop cfg.yearLength).drop cfg.monthLength).take cfg.dayLength =
      ((s.drop cfg.yearLength).drop cfg.monthLength).take cfg.dayLength)
    (hH : (((t.drop cfg.yearLength).drop cfg.monthLength).drop cfg.dayLength).take
        cfg.hourLength =
      (((s.drop cfg.yearLength).drop cfg.monthLength).drop cfg.dayLength).take
        cfg.hourLength)
    (hS : ((digitsToNat (((((t.drop cfg.yearLength).drop cfg.monthLength).drop
          cfg.dayLength).drop cfg.hourLength).take cfg.minuteLength) : Int)) / 60 =
      ((digitsToNat (((((s.drop cfg.yearLength).drop cfg.monthLength).drop
          cfg.dayLength).drop cfg.hourLength).take cfg.minuteLength) : Int)) / 60) :
    (parseSimplifiedDate s cfg false ty).map (fun r => (r.year, r.month, r.day, r.hour)) =
      (parseSimplifiedDate t cfg false ty).map
        (fun r => (r.year, r.month, r.day, r.hour)) := by
  by_cases h1 : s = []
  · rw [h1, h0.mp h1]
  · have h1t : ¬(t = []) := fun ht => h1 (h0.mpr ht)
    simp only [parseSimplifiedDate, hfs, hft, if_neg h1, if_neg h1t, hY, hM, hD,
      hH, Bool.false_eq_true, false_and, if_false]
    split_ifs <;>
      first
        | rfl
        | (simp only [Option.map_some', Option.some.injEq, createDateResult,
            Prod.mk.injEq, and_true, true_and, eq_self_iff_true]
           omega)

/-- C9: the minute slice never changes the constructed date's numeric
components.  For every parse of a digit string whose minute slice value is in
`[0, 59]`: (1) the result's `hour` field equals the parsed hour slice (the
minute is folded in as `floor(hour + minute/60)` and discarded); (2) the
start-date parse is numeric-component-identical to parsing the string with
the minute digits absent; (3) except that a present minute slice disables
end-date inference (the `isEndDate = true` parse then equals the start-date
parse). -/
theorem spec_c9_minute_slice (s : JStr) (cfg : DateParsingConfig)
    (isEnd : Bool) (ty : JStr)
    (hall : ∀ c ∈ s, jsIsDigit c = true)
    (hmv : digitsToNat (minuteSlice s cfg) ≤ 59) :
    (∀ r, parseSimplifiedDate s cfg isEnd ty = some r →
      r.hour = (digitsToNat (hourSlice s cfg) : Int)) ∧
    ((parseSimplifiedDate s cfg false ty).map
        (fun r => (r.year, r.month, r.day, r.hour)) =
      (parseSimplifiedDate (s.take (cfg.yearLength + cfg.monthLength +
          cfg.dayLength + cfg.hourLength)) cfg false ty).map
        (fun r => (r.year, r.month, r.day, r.hour))) ∧
    (minuteSlice s cfg ≠ [] →
      parseSimplifiedDate s cfg true ty = parseSimplifiedDate s cfg false ty) := by
  have hfs : s.filter jsIsDigit = s := List.filter_eq_self.mpr hall
  simp only [minuteSlice, hfs] at hmv
  refine ⟨?_, ?_, ?_⟩
  · -- (1) the hour field is the hour slice
    intro r hr
    simp only [parseSimplifiedDate, hfs] at hr
    simp only [hourSlice, hfs]
    by_cases h1 : s = []
    · rw [if_pos h1] at hr
      exact absurd hr (by simp)
    rw [if_neg h1] at hr
    by_cases h2 : s.take cfg.yearLength = []
    · rw [if_pos h2] at hr
      exact absurd hr (by simp)
    rw [if_neg h2] at hr
    by_cases h3 : ((digitsToNat (s.take cfg.yearLength) : Int)) = 0
    · rw [if_pos h3] at hr
      exact absurd hr (by simp)
    rw [if_neg h3] at hr
    by_cases h4 : isEnd = true ∧ ty ≠ "point".toList ∧
        (s.drop cfg.yearLength).take cfg.monthLength = [] ∧
        ((s.drop cfg.yearLength).drop cfg.monthLength).take cfg.dayLength = [] ∧
        (((s.drop cfg.yearLength).drop cfg.monthLength).drop cfg.dayLength).take
          cfg.hourLength = [] ∧
        ((((s.drop cfg.yearLength).drop cfg.monthLength).drop cfg.dayLength).drop
          cfg.hourLength).take cfg.minuteLength = []
    · rw [if_pos h4] at hr
      obtain rfl := Option.some.inj hr
      rw [h4.2.2.2.2.1]
      simp [createDateResult, digitsToNat]
    · rw [if_neg h4] at hr
      obtain rfl := Option.some.inj hr
      simp only [createDateResult]
      omega
  · -- (2) identical numeric components without the minute digits
    by_cases hK : cfg.yearLength + cfg.monthLength + cfg.dayLength +
        cfg.hourLength = 0
    · have ht : s.take (cfg.yearLength + cfg.monthLength + cfg.dayLength +
          cfg.hourLength) = [] := by
        rw [hK]
        exact List.take_zero s
      have hY0 : cfg.yearLength = 0 := by omega
      rw [ht]
      by_cases h1 : s = []
      · rw [h1]
      · have hL : parseSimplifiedDate s cfg false ty = none := by
          simp only [parseSimplifiedDate, hfs, if_neg h1, hY0, List.take_zero]
          rfl
        rw [hL]
        rfl
    · have hft : (s.take (cfg.yearLength + cfg.monthLength + cfg.dayLength +
          cfg.hourLength)).filter jsIsDigit = s.take (cfg.yearLength +
          cfg.monthLength + cfg.dayLength + cfg.hourLength) :=
        List.filter_eq_self.mpr (fun c hc => hall c (List.mem_of_mem_take hc))
      have h0 : s = [] ↔ s.take (cfg.yearLength + cfg.monthLength +
          cfg.dayLength + cfg.hourLength) = [] := by
        rw [List.take_eq_nil_iff]
        constructor
        · exact fun h => Or.inr h
        · rintro (h | h)
          · omega
          · exact h
      have hdY : (s.take (cfg.yearLength + cfg.monthLength + cfg.dayLength +
          cfg.hourLength)).drop cfg.yearLength =
          (s.drop cfg.yearLength).take (cfg.monthLength + cfg.dayLength +
            cfg.hourLength) := by
        rw [List.drop_take]
        congr 1
        omega
      have hdM : ((s.take (cfg.yearLength + cfg.monthLength + cfg.dayLength +
          cfg.hourLength)).drop cfg.yearLength).drop cfg.monthLength =
          ((s.drop cfg.yearLength).drop cfg.monthLength).take (cfg.dayLength +
            cfg.hourLength) := by
        rw [hdY, List.drop_take]
        congr 1
        omega
      have hdD : (((s.take (cfg.yearLength + cfg.monthLength + cfg.dayLength +
          cfg.hourLength)).drop cfg.yearLength).drop cfg.monthLength).drop
            cfg.dayLength =
          (((s.drop cfg.yearLength).drop cfg.monthLength).drop cfg.dayLength).take
            cfg.hourLength := by
        rw [hdM, List.drop_take]
        congr 1
        omega
      have htMi : ((((s.take (cfg.yearLength + cfg.monthLength + cfg.dayLength +
          cfg.hourLength)).drop cfg.yearLength).drop cfg.monthLength).drop
            cfg.dayLength).drop cfg.hourLength = [] := by
        rw [hdD, List.drop_take, Nat.sub_self, List.take_zero]
      refine parse_components_congr s _ cfg ty hfs hft h0 ?_ ?_ ?_ ?_ ?_
      · rw [List.take_take]
        congr 1
        omega
      · rw [hdY, List.take_take]
        congr 1
        omega
      · rw [hdM, List.take_take]
        congr 1
        omega
      · rw [hdD, List.take_take]
        congr 1
        omega
      · rw [htMi]
        have h00 : digitsToNat (List.take cfg.minuteLength []) = 0 := by
          rw [List.take_nil]
          rfl
        rw [h00]
        omega
  · -- (3) a present minute slice disables end-date inference
    intro hmin
    exact parse_isEnd_eq_of_finer s cfg ty (fun hc => hmin hc.2.2.2)

/-- C9 (witness): `'202507251430'` (minute slice `30`) with the default
config parses to the same numeric components as `'2025072514'`, and its
end-date parse equals its start-date parse. -/
theorem spec_c9_minute_slice_witness :
    ((parseSimplifiedDate "202507251430".toList ⟨4, 2, 2, 2, 2⟩ false
        "box".toList).map (fun r => (r.year, r.month, r.day, r.hour)) =
      (parseSimplifiedDate ("202507251430".toList.take (4 + 2 + 2 + 2))
          ⟨4, 2, 2, 2, 2⟩ false "box".toList).map
        (fun r => (r.year, r.month, r.day, r.hour))) ∧
    parseSimplifiedDate "202507251430".toList ⟨4, 2, 2, 2, 2⟩ true "box".toList =
      parseSimplifiedDate "202507251430".toList ⟨4, 2, 2, 2, 2⟩ false
        "box".toList :=
  ⟨(spec_c9_minute_slice "202507251430".toList ⟨4, 2, 2, 2, 2⟩ false
      "box".toList (by decide) (by decide)).2.1,
   (spec_c9_minute_slice "202507251430".toList ⟨4, 2, 2, 2, 2⟩ true
      "box".toList (by decide) (by decide)).2.2 (by decide)⟩

/-! ## Claim C10 -/

theorem mem_insertSorted {x y : JStr} {l : List JStr} :
    y ∈ insertSorted x l ↔ y = x ∨ y ∈ l := by
  induction l with
  | nil => simp [insertSorted]
  | cons a as ih =>
    simp only [insertSorted]
    split_ifs
    · simp only [List.mem_cons, ih]
      tauto
    · simp only [List.mem_cons]

theorem mem_sortStrings {x : JStr} {l : List JStr} :
    x ∈ sortStrings l ↔ x ∈ l := by
  induction l with
  | nil => simp [sortStrings]
  | cons a as ih =>
    simp only [sortStrings, List.foldr_cons] at ih ⊢
    rw [mem_insertSorted]
    simp only [List.mem_cons, ih]

/-- C10: sorting with descending direction yields exactly the reverse of
sorting with ascending direction, and in ascending order the result splits
into a block of `'-'`-prefixed (BCE) dates followed by a block of
non-negative dates. -/
theorem spec_c10_sort_reverse_and_bce_first (dates : List JStr) :
    sortTimelineDates dates false = (sortTimelineDates dates true).reverse ∧
    ∃ ns ps, sortTimelineDates dates true = ns ++ ps ∧
      (∀ x ∈ ns, x.head? = some '-') ∧ (∀ x ∈ ps, ¬(x.head? = some '-')) := by
  constructor
  · simp only [sortTimelineDates, Bool.false_eq_true, if_false, if_true,
      List.reverse_append]
    rw [(List.map_reverse (fun d => '-' :: d) _).symm]
  · refine ⟨((sortStrings ((dates.filter (fun d => d.head? == some '-')).map
        (fun d => d.drop 1))).reverse).map (fun d => '-' :: d),
      sortStrings (dates.filter (fun d => !(d.head? == some '-'))), ?_, ?_, ?_⟩
    · simp only [sortTimelineDates, if_true]
    · intro x hx
      simp only [List.mem_map] at hx
      obtain ⟨y, _, rfl⟩ := hx
      rfl
    · intro x hx
      rw [mem_sortStrings] at hx
      have hp := List.of_mem_filter hx
      simp only [Bool.not_eq_true', beq_eq_false_iff_ne, ne_eq] at hp
      exact hp

/-- C10 (witness): the reversal relation and the BCE-first split at a
concrete list of normalized date strings. -/
theorem spec_c10_sort_reverse_and_bce_first_witness :
    sortTimelineDates ["0100".toList, "-0200".toList, "0050".toList,
        "-0100".toList] false =
      (sortTimelineDates ["0100".toList, "-0200".toList, "0050".toList,
        "-0100".toList] true).reverse ∧
    ∃ ns ps, sortTimelineDates ["0100".toList, "-0200".toList, "0050".toList,
        "-0100".toList] true = ns ++ ps ∧
      (∀ x ∈ ns, x.head? = some '-') ∧ (∀ x ∈ ps, ¬(x.head? = some '-')) :=
  spec_c10_sort_reverse_and_bce_first _

/-! ## Claim C8 -/

theorem jsIsDigit_digitChar {d : Nat} (h : d < 10) :
    jsIsDigit (digitChar d) = true := by
  interval_cases d <;> decide

theorem digitVal_digitChar {d : Nat} (h : d < 10) :
    digitVal (digitChar d) = d := by
  interval_cases d <;> decide

theorem natToDigitsAux_step (m k : Nat) (hk : ¬(k < 10)) :
    natToDigitsAux (m + 1) k = natToDigitsAux m (k / 10) ++ [digitChar (k % 10)] := by
  simp [natToDigitsAux, hk]

theorem natToDigitsAux_base (m k : Nat) (hk : k < 10) :
    natToDigitsAux m k = [digitChar k] := by
  cases m <;> simp [natToDigitsAux, hk]

/-- The decimal representation of a four-digit number. -/
theorem natToDigits_four (n : Nat) (h1 : 1000 ≤ n) (h2 : n < 10000) :
    natToDigits n = [digitChar (n / 1000), digitChar (n / 100 % 10),
      digitChar (n / 10 % 10), digitChar (n % 10)] := by
  obtain ⟨f, rfl⟩ : ∃ f, n = f + 3 := ⟨n - 3, by omega⟩
  rw [natToDigits, natToDigitsAux_step _ _ (by omega),
    show f + 2 + 1 = (f + 1) + 1 + 1 from by ring] at *
  rw [natToDigitsAux_step _ _ (by omega),
    natToDigitsAux_step _ _ (by omega),
    natToDigitsAux_base _ _ (by omega)]
  have e1 : (f + 3) / 10 / 10 / 10 = (f + 3) / 1000 := by omega
  have e2 : (f + 3) / 10 / 10 = (f + 3) / 100 := by omega
  rw [e1, e2]
  simp only [List.cons_append, List.nil_append]

theorem digitsToNat_four (a b c d : Nat) (ha : a < 10) (hb : b < 10)
    (hc : c < 10) (hd : d < 10) :
    digitsToNat [digitChar a, digitChar b, digitChar c, digitChar d] =
      ((a * 10 + b) * 10 + c) * 10 + d := by
  simp only [digitsToNat, List.foldl_cons, List.foldl_nil,
    digitVal_digitChar ha, digitVal_digitChar hb, digitVal_digitChar hc,
    digitVal_digitChar hd]
  ring

/-- Parsing the decimal form of a four-digit year with a config whose year
width is at least 4 recovers exactly that year with all defaults. -/
theorem parse_year_literal (cfg : DateParsingConfig) (Y : Int)
    (hcfg : 4 ≤ cfg.yearLength) (h1 : 1000 ≤ Y) (h2 : Y ≤ 9999) :
    parseSimplifiedDate (intToStr Y) cfg false "box".toList =
      some (createDateResult Y 1 1 0 0 (intToStr Y)) := by
  have hYnn : ¬(Y < 0) := by omega
  have hn1 : 1000 ≤ Y.toNat := by omega
  have hn2 : Y.toNat < 10000 := by omega
  have hs4 : intToStr Y = [digitChar (Y.toNat / 1000),
      digitChar (Y.toNat / 100 % 10), digitChar (Y.toNat / 10 % 10),
      digitChar (Y.toNat % 10)] := by
    rw [intToStr, if_neg hYnn, natToDigits_four Y.toNat hn1 hn2]
  have hall : ∀ c ∈ intToStr Y, jsIsDigit c = true := by
    rw [hs4]
    intro c hc
    simp only [List.mem_cons, List.not_mem_nil, or_false] at hc
    rcases hc with rfl | rfl | rfl | rfl
    · exact jsIsDigit_digitChar (by omega)
    · exact jsIsDigit_digitChar (by omega)
    · exact jsIsDigit_digitChar (by omega)
    · exact jsIsDigit_digitChar (by omega)
  have hfs : (intToStr Y).filter jsIsDigit = intToStr Y :=
    List.filter_eq_self.mpr hall
  have hlen : (intToStr Y).length = 4 := by
    rw [hs4]
    rfl
  have htake : (intToStr Y).take cfg.yearLength = intToStr Y :=
    List.take_of_length_le (by omega)
  have hdrop : (intToStr Y).drop cfg.yearLength = [] :=
    List.drop_eq_nil_of_le (by omega)
  have hval : digitsToNat (intToStr Y) = Y.toNat := by
    rw [hs4, digitsToNat_four _ _ _ _ (by omega) (by omega) (by omega) (by omega)]
    omega
  have hsne : intToStr Y ≠ [] := by
    rw [hs4]
    simp
  have hz : digitsToNat ([] : JStr) = 0 := rfl
  have hcast : ((Y.toNat : Int)) = Y := Int.toNat_of_nonneg (by omega)
  simp only [parseSimplifiedDate, hfs, if_neg hsne, htake, hdrop,
    List.take_nil, List.drop_nil, hval, hcast,
    if_neg (show ¬(Y = 0) by omega), Bool.false_eq_true, false_and, if_false,
    hz, Nat.cast_zero]
  norm_num

/-- Building the parse result of `Y`-01-01 00:00 for `1 ≤ Y ≤ 9999` always
succeeds and yields the January-1 instant (on either construction path). -/
theorem build_jan1 (Y : Int) (orig : JStr) (h1 : 1 ≤ Y) (h2 : Y ≤ 9999) :
    buildTimelineDate (some (createDateResult Y 1 1 0 0 orig)) =
      some (makeDateMs Y 0 1 0) := by
  have hys : (createDateResult Y 1 1 0 0 orig).year = Y := rfl
  have hms : (createDateResult Y 1 1 0 0 orig).month = 0 := by
    norm_num [createDateResult]
  have hds : (createDateResult Y 1 1 0 0 orig).day = 1 := rfl
  have hhs : (createDateResult Y 1 1 0 0 orig).hour = 0 := by
    norm_num [createDateResult]
  simp only [buildTimelineDate, hys, hms, hds, hhs]
  rw [if_neg (show ¬(Y = 0) by omega),
    if_neg (show ¬((0:Int) < 0 ∨ 11 < (0:Int)) by norm_num),
    if_neg (show ¬((1:Int) < 1 ∨ 31 < (1:Int)) by norm_num),
    if_neg (show ¬((0:Int) < 0 ∨ 23 < (0:Int)) by norm_num)]
  by_cases hY : Y < 0 ∨ 1900 < Y
  · rw [if_pos hY]
    simp only [jsNewDateMs]
    rw [if_neg (show ¬(0 ≤ Y ∧ Y ≤ 99) by omega)]
    rw [if_neg (show ¬(makeDateMs Y 0 1 0 < -8640000000000000 ∨
        8640000000000000 < makeDateMs Y 0 1 0) from ?_)]
    have hg1 : gday Y ≤ gday 10000 := gday_mono (by omega)
    have hg2 : gday 1 ≤ gday Y := gday_mono (by omega)
    have hgc1 : gday 10000 = 2932897 := by decide
    have hgc2 : gday 1 = -719162 := by decide
    simp only [makeDateMs]
    rw [show cumDays (0 + 1) = 0 from by decide,
      if_neg (show ¬((3:Int) ≤ 0 + 1 ∧ isLeap Y = true) from
        fun hcon => absurd hcon.1 (by norm_num))]
    omega
  · rw [if_neg hY]
    rw [if_neg (show ¬(daysInMonth Y (0 + 1) < 1) from ?_)]
    have : daysInMonth Y (0 + 1) = 31 := by norm_num [daysInMonth]
    omega

/-- C8 (counterexample): with a settings object whose `dateParsingConfig`
year width is 3 (a positive integer width), the default visible-window start
is built from the truncated year slice `'197'` of `'1975'` — a valid year-197
date — so the parse/build pipeline succeeds with the wrong year and the
returned bound's year is 197, not `max(1900, currentYear − 50) = 1975`
(with `currentYear = 2025`). -/
theorem spec_c8_counterexample :
    ((setDefaultArgs ⟨3, 2, 2, 2, 2⟩ 2025).startDate).isSome = true ∧
    getFullYear (((setDefaultArgs ⟨3, 2, 2, 2, 2⟩ 2025).startDate).getD 0) = 197 ∧
    max 1900 ((2025 : Int) - 50) = 1975 ∧ (197 : Int) ≠ 1975 := by
  refine ⟨by decide, by decide, by decide, by decide⟩

/-- C8 (amended): for every settings object whose `dateParsingConfig` year
width is at least 4 (so the year slice consumes the default years' full
decimal form) and `currentYear ∈ [1900, 9899]`, the default argument builder
returns non-null date bounds at January 1 of the years
`[max(1900, currentYear−50), currentYear+50]` (visible window) and
`[max(1800, currentYear−100), currentYear+100]` (pannable bound), built via
the parser/builder pipeline with a raw `new Date(y, 0, 1)` fallback, and sets
`zoomOutLimit` to exactly one unit above the nominal ceiling
(`315360000000001`) with `zoomInLimit = 10`. -/
theorem spec_c8_default_args (cfg : DateParsingConfig) (currentYear : Int)
    (hcfg : 4 ≤ cfg.yearLength)
    (h1 : 1900 ≤ currentYear) (h2 : currentYear ≤ 9899) :
    (setDefaultArgs cfg currentYear).startDate =
      some (makeDateMs (max 1900 (currentYear - 50)) 0 1 0) ∧
    (setDefaultArgs cfg currentYear).endDate =
      some (makeDateMs (currentYear + 50) 0 1 0) ∧
    (setDefaultArgs cfg currentYear).minDate =
      some (makeDateMs (max 1800 (currentYear - 100)) 0 1 0) ∧
    (setDefaultArgs cfg currentYear).maxDate =
      some (makeDateMs (currentYear + 100) 0 1 0) ∧
    (setDefaultArgs cfg currentYear).zoomOutLimit = 315360000000001 ∧
    (setDefaultArgs cfg currentYear).zoomInLimit = 10 := by
  refine ⟨?_, ?_, ?_, ?_, rfl, rfl⟩
  · have hp := parse_year_literal cfg (max 1900 (currentYear - 50)) hcfg
      (by omega) (by omega)
    have hb := build_jan1 (max 1900 (currentYear - 50))
      (intToStr (max 1900 (currentYear - 50))) (by omega) (by omega)
    simp only [setDefaultArgs, hp, hb, orDate]
  · have hp := parse_year_literal cfg (currentYear + 50) hcfg
      (by omega) (by omega)
    have hb := build_jan1 (currentYear + 50) (intToStr (currentYear + 50))
      (by omega) (by omega)
    simp only [setDefaultArgs, hp, hb, orDate]
  · have hp := parse_year_literal cfg (max 1800 (currentYear - 100)) hcfg
      (by omega) (by omega)
    have hb := build_jan1 (max 1800 (currentYear - 100))
      (intToStr (max 1800 (currentYear - 100))) (by omega) (by omega)
    simp only [setDefaultArgs, hp, hb, orDate]
  · have hp := parse_year_literal cfg (currentYear + 100) hcfg
      (by omega) (by omega)
    have hb := build_jan1 (currentYear + 100) (intToStr (currentYear + 100))
      (by omega) (by omega)
    simp only [setDefaultArgs, hp, hb, orDate]

/-- C8 (witness): the default bounds at the default config and
`currentYear = 2025`. -/
theorem spec_c8_default_args_witness :
    (setDefaultArgs ⟨4, 2, 2, 2, 2⟩ 2025).startDate =
      some (makeDateMs (max 1900 ((2025 : Int) - 50)) 0 1 0) ∧
    (setDefaultArgs ⟨4, 2, 2, 2, 2⟩ 2025).endDate =
      some (makeDateMs ((2025 : Int) + 50) 0 1 0) ∧
    (setDefaultArgs ⟨4, 2, 2, 2, 2⟩ 2025).minDate =
      some (makeDateMs (max 1800 ((2025 : Int) - 100)) 0 1 0) ∧
    (setDefaultArgs ⟨4, 2, 2, 2, 2⟩ 2025).maxDate =
      some (makeDateMs ((2025 : Int) + 100) 0 1 0) ∧
    (setDefaultArgs ⟨4, 2, 2, 2, 2⟩ 2025).zoomOutLimit = 315360000000001 ∧
    (setDefaultArgs ⟨4, 2, 2, 2, 2⟩ 2025).zoomInLimit = 10 :=
  spec_c8_default_args ⟨4, 2, 2, 2, 2⟩ 2025 (by decide) (by decide) (by decide)
